import Mathlib

/-!
# Verification of `midl`'s `createFunctionWithMiddleware`

Shallow embedding of `src/functions/create-function-with-middleware.ts`.

A base callable `(...inputs: I) => O` that may throw is modelled as
`I → Except E O`, with `I` the (tuple) type of inputs, `O` the output type
and `E` the type of thrown error values.  The optional configuration object
is the structure `Config`; each hook may itself throw, so hooks also return
`Except`.

The body of `functionWithMiddleware` is a single `try { ... } catch`, where
the local variable `inputs` is reassigned by `handleInput`.  The embedding
tracks that reassignment explicitly: `tryStage` returns the result of the
try-block together with the value the variable `inputs` holds when the
catch-block runs (the original inputs when `handleInput` threw before the
assignment completed, the transformed inputs afterwards).
-/

universe u v w

section Midl

variable {I : Type u} {O : Type v} {E : Type w}

/-- The optional configuration object of `createFunctionWithMiddleware`:

```ts
config?: {
  assertions?: [I, O][];
  handleError?: (definition: F, error: Error, ...inputs: I) => O;
  handleInput?: (definition: F, ...inputs: I) => I;
  handleOutput?: (definition: F, output: O, ...inputs: I) => O;
}
```

`assertions ?? []` in the source defaults an absent list to `[]`, so the
field is a plain list.  Each hook may throw, hence the `Except` codomains. -/
structure Config (I : Type u) (O : Type v) (E : Type w) where
  assertions : List (I × O) := []
  handleError : Option ((I → Except E O) → E → I → Except E O) := none
  handleInput : Option ((I → Except E O) → I → Except E I) := none
  handleOutput : Option ((I → Except E O) → O → I → Except E O) := none

/-- The input stage,
`if (handleInput) { inputs = handleInput(definition, ...inputs); }`:
apply `handleInput` when defined, otherwise the inputs pass through
unchanged. -/
def inputStage (cfg : Config I O E) (definition : I → Except E O) (inputs : I) :
    Except E I :=
  match cfg.handleInput with
  | some h => h definition inputs
  | none => Except.ok inputs

/-- The output stage,
`if (handleOutput) { return handleOutput(definition, output, ...inputs); }
return output;`: apply `handleOutput` when defined, otherwise return the
output unchanged. -/
def outputStage (cfg : Config I O E) (definition : I → Except E O) (output : O)
    (inputs : I) : Except E O :=
  match cfg.handleOutput with
  | some h => h definition output inputs
  | none => Except.ok output

/-- The `try`-block of `functionWithMiddleware`, returning its result paired
with the value of the mutable variable `inputs` at the moment the
catch-block would run: if `handleInput` throws, the reassignment
`inputs = handleInput(...)` never took effect and the catch sees the
original inputs; after a successful input stage the catch sees the
transformed inputs. -/
def tryStage (definition : I → Except E O) (cfg : Config I O E) (inputs : I) :
    Except E O × I :=
  match inputStage cfg definition inputs with
  | Except.error e => (Except.error e, inputs)
  | Except.ok inputs' =>
    (match definition inputs' with
     | Except.error e => Except.error e
     | Except.ok output => outputStage cfg definition output inputs', inputs')

/-- The wrapped function built by `createFunctionWithMiddleware`:

```ts
const functionWithMiddleware = (...inputs: I): O => {
  try {
    if (handleInput) { inputs = handleInput(definition, ...inputs); }
    const output = definition(...inputs);
    if (handleOutput) { return handleOutput(definition, output, ...inputs); }
    return output;
  } catch (error) {
    if (handleError) { return handleError(definition, error, ...inputs); }
    throw error;
  }
};
``` -/
def functionWithMiddleware (definition : I → Except E O) (cfg : Config I O E)
    (inputs : I) : Except E O :=
  match tryStage definition cfg inputs with
  | (Except.ok o, _) => Except.ok o
  | (Except.error e, ins) =>
    match cfg.handleError with
    | some h => h definition e ins
    | none => Except.error e

/-- An error thrown out of the decoration call `createFunctionWithMiddleware`
itself: either an error propagated from running `functionWithMiddleware` on
an assertion's inputs, or the `new Error(message)` constructed on an
assertion mismatch. -/
inductive DecorationError (E : Type w) where
  | runtime : E → DecorationError E
  | assertionFailure : String → DecorationError E
  deriving DecidableEq

/-- The message of the error constructed on an assertion mismatch:

```ts
`Expected ${definition.name}(${inputs.join(", ")}) to return ${output},
 but got ${actualOutput}.`
```

`name` is `definition.name`, `inputsJoined` the result of
`inputs.join(", ")`, and `expected`/`actual` the stringifications of the
two output values. -/
def assertionMessage (name inputsJoined expected actual : String) : String :=
  "Expected " ++ name ++ "(" ++ inputsJoined ++ ") to return " ++ expected ++
    ", but got " ++ actual ++ "."

/-- The `(assertions ?? []).forEach(...)` loop: run the just-built wrapped
function on each pair's inputs in order, compare with strict equality, and
throw on the first mismatch.  A throw from the wrapped function itself (or
from the mismatch branch) propagates and stops the iteration.  `name` is
`definition.name`, `joinInputs` models `inputs.join(", ")` and `showO`
template-literal stringification of outputs. -/
def checkAssertions [DecidableEq O] (wrapped : I → Except E O) (name : String)
    (joinInputs : I → String) (showO : O → String) :
    List (I × O) → Except (DecorationError E) Unit
  | [] => Except.ok ()
  | (inputs, output) :: rest =>
    match wrapped inputs with
    | Except.error e => Except.error (DecorationError.runtime e)
    | Except.ok actualOutput =>
      if actualOutput = output then
        checkAssertions wrapped name joinInputs showO rest
      else
        Except.error (DecorationError.assertionFailure
          (assertionMessage name (joinInputs inputs) (showO output)
            (showO actualOutput)))

/-- The decoration call `createFunctionWithMiddleware(definition, config?)`:
with no config the
definition itself is returned; otherwise the wrapped function is built, the
assertions are checked once against it, and it is returned (unless an
assertion check threw, in which case the decoration call throws). -/
def createFunctionWithMiddleware [DecidableEq O] (definition : I → Except E O)
    (name : String) (joinInputs : I → String) (showO : O → String)
    (config : Option (Config I O E)) :
    Except (DecorationError E) (I → Except E O) :=
  match config with
  | none => Except.ok definition
  | some cfg =>
    match checkAssertions (functionWithMiddleware definition cfg) name
        joinInputs showO cfg.assertions with
    | Except.error e => Except.error e
    | Except.ok _ => Except.ok (functionWithMiddleware definition cfg)

/-- A list of calls to the same wrapped function, in order; used to state
that the decorator keeps no state across calls. -/
def runCalls (definition : I → Except E O) (cfg : Config I O E)
    (calls : List I) : List (Except E O) :=
  calls.map (functionWithMiddleware definition cfg)

end Midl

deriving instance DecidableEq for Except

/-! Concrete base callables, hooks and configurations over `Nat`, used to
exercise the theorems below on closed inputs. -/

/-- A base callable that returns successfully: `n => n + 1`. -/
def addOne : Nat → Except Nat Nat := fun n => Except.ok (n + 1)

/-- A base callable that always throws the error value `3`. -/
def throwBase : Nat → Except Nat Nat := fun _ => Except.error 3

/-- An input hook that always throws the error value `7`. -/
def hiThrow : (Nat → Except Nat Nat) → Nat → Except Nat Nat :=
  fun _ _ => Except.error 7

/-- An output hook that always throws the error value `9`. -/
def hoThrow : (Nat → Except Nat Nat) → Nat → Nat → Except Nat Nat :=
  fun _ _ _ => Except.error 9

/-- An error hook that recovers, encoding the error and the inputs it saw
into its return value: `(e, n) => 100 * e + n`. -/
def heHook : (Nat → Except Nat Nat) → Nat → Nat → Except Nat Nat :=
  fun _ e n => Except.ok (100 * e + n)

/-- An error hook that itself throws, shifting the error value by `50`. -/
def heThrow : (Nat → Except Nat Nat) → Nat → Nat → Except Nat Nat :=
  fun _ e _ => Except.error (e + 50)

/-- An input hook that doubles its (single) input. -/
def hiDouble : (Nat → Except Nat Nat) → Nat → Except Nat Nat :=
  fun _ n => Except.ok (2 * n)

/-- An output hook that doubles the output. -/
def hoDouble : (Nat → Except Nat Nat) → Nat → Nat → Except Nat Nat :=
  fun _ o _ => Except.ok (2 * o)

/-- Throwing input hook together with a recovering error hook. -/
def cfgA : Config Nat Nat Nat :=
  { handleInput := some hiThrow, handleError := some heHook }

/-- Throwing output hook together with a recovering error hook. -/
def cfgB : Config Nat Nat Nat :=
  { handleOutput := some hoThrow, handleError := some heHook }

/-- Throwing input hook and no error hook. -/
def cfgC : Config Nat Nat Nat := { handleInput := some hiThrow }

/-- Throwing output hook and no error hook. -/
def cfgD : Config Nat Nat Nat := { handleOutput := some hoThrow }

/-- Doubling input and output hooks, no error hook. -/
def cfgHooks : Config Nat Nat Nat :=
  { handleInput := some hiDouble, handleOutput := some hoDouble }

/-- Doubling input and output hooks plus a recovering error hook. -/
def cfgFull : Config Nat Nat Nat :=
  { handleError := some heHook, handleInput := some hiDouble,
    handleOutput := some hoDouble }

/-- Only an error hook, and one that itself throws. -/
def cfgRethrow : Config Nat Nat Nat := { handleError := some heThrow }

/-- No hooks; assertions whose second pair fails under `addOne`
(`addOne 3 = 4 ≠ 5`). -/
def cfgAsrtBad : Config Nat Nat Nat := { assertions := [(1, 2), (3, 5)] }

/-- No hooks; a single assertion whose inputs make `throwBase` throw. -/
def cfgAsrtThrow : Config Nat Nat Nat := { assertions := [(0, 9)] }

section MidlTheorems

universe u' v' w'

variable {I : Type u'} {O : Type v'} {E : Type w'}

/-- Assertion pairs that all pass are skipped: checking a list that starts
with a passing prefix reduces to checking the rest. -/
theorem checkAssertions_append_of_pass [DecidableEq O]
    (w : I → Except E O) (name : String) (ji : I → String) (so : O → String)
    (pre rest : List (I × O))
    (h : ∀ p ∈ pre, w p.1 = Except.ok p.2) :
    checkAssertions w name ji so (pre ++ rest) =
      checkAssertions w name ji so rest := by
  induction pre with
  | nil => rfl
  | cons a t ih =>
    obtain ⟨x, o⟩ := a
    have hx : w x = Except.ok o := h (x, o) (List.mem_cons_self _ _)
    simp only [List.cons_append, checkAssertions, hx, if_pos rfl]
    exact ih fun p hp => h p (List.mem_cons_of_mem _ hp)

/-- When every assertion pair passes, the whole check succeeds. -/
theorem checkAssertions_of_all_pass [DecidableEq O]
    (w : I → Except E O) (name : String) (ji : I → String) (so : O → String)
    (l : List (I × O)) (h : ∀ p ∈ l, w p.1 = Except.ok p.2) :
    checkAssertions w name ji so l = Except.ok () := by
  have := checkAssertions_append_of_pass w name ji so l [] h
  simpa using this

/-- The result of a call in a call history is the wrapped function applied
to that call's own inputs, whatever the surrounding calls are. -/
theorem runCalls_get (f : I → Except E O) (cfg : Config I O E)
    (pre post : List I) (x : I) :
    (runCalls f cfg (pre ++ x :: post)).get? pre.length =
      some (functionWithMiddleware f cfg x) := by
  induction pre with
  | nil => rfl
  | cons a t ih => simpa [runCalls] using ih

end MidlTheorems

section MidlClaims

universe u2 v2 w2

variable {I : Type u2} {O : Type v2} {E : Type w2}

/-- C1 (counterexample): the claim says that when `handleError` is defined
and `handleInput` throws, the error propagates out of the wrapped function
unchanged and `handleError` is never invoked.  In the code the single
`try` block wraps the input stage too, so with the throwing input hook of
`cfgA` (error value `7`) and its recovering error hook, the wrapped
function returns the error hook's value `100 * 7 + 0 = 700` instead of
propagating the error. -/
theorem midl_hook_error_bypasses_handler_cex :
    functionWithMiddleware addOne cfgA 0 = Except.ok 700 ∧
    functionWithMiddleware addOne cfgA 0 ≠ Except.error 7 := by
  exact ⟨rfl, by decide⟩

/-- C1 (amended): a throw from `handleInput` or `handleOutput` is caught by
the decorator's catch-block.  When `handleError` is defined it is routed
through `handleError` — with the original inputs for an input-hook throw
and the post-transform inputs for an output-hook throw; only when
`handleError` is absent does the hook error propagate unchanged. -/
theorem midl_hook_errors_routed_through_handler
    (f : I → Except E O) (cfg : Config I O E)
    (hi : (I → Except E O) → I → Except E I)
    (ho : (I → Except E O) → O → I → Except E O)
    (he : (I → Except E O) → E → I → Except E O)
    (x x' : I) (o : O) (e : E) :
    (cfg.handleError = some he → cfg.handleInput = some hi →
      hi f x = Except.error e →
      functionWithMiddleware f cfg x = he f e x) ∧
    (cfg.handleError = some he → inputStage cfg f x = Except.ok x' →
      f x' = Except.ok o → cfg.handleOutput = some ho →
      ho f o x' = Except.error e →
      functionWithMiddleware f cfg x = he f e x') ∧
    (cfg.handleError = none → cfg.handleInput = some hi →
      hi f x = Except.error e →
      functionWithMiddleware f cfg x = Except.error e) ∧
    (cfg.handleError = none → inputStage cfg f x = Except.ok x' →
      f x' = Except.ok o → cfg.handleOutput = some ho →
      ho f o x' = Except.error e →
      functionWithMiddleware f cfg x = Except.error e) := by
  refine ⟨fun hhe hhi hthrow => ?_, fun hhe hin hbase hho hthrow => ?_,
    fun hhe hhi hthrow => ?_, fun hhe hin hbase hho hthrow => ?_⟩
  · simp [functionWithMiddleware, tryStage, inputStage, hhi, hthrow, hhe]
  · simp [functionWithMiddleware, tryStage, outputStage, hin, hbase, hho,
      hthrow, hhe]
  · simp [functionWithMiddleware, tryStage, inputStage, hhi, hthrow, hhe]
  · simp [functionWithMiddleware, tryStage, outputStage, hin, hbase, hho,
      hthrow, hhe]

/-- C1 (witness): the four branches of the amended claim at concrete
inputs: input-hook throw recovered (`100 * 7 + 5`), output-hook throw
recovered with post-transform inputs (`100 * 9 + 5`), and both hook
throws propagating when no error hook is configured. -/
theorem midl_hook_errors_routed_through_handler_witness :
    functionWithMiddleware addOne cfgA 5 = Except.ok 705 ∧
    functionWithMiddleware addOne cfgB 5 = Except.ok 905 ∧
    functionWithMiddleware addOne cfgC 5 = Except.error 7 ∧
    functionWithMiddleware addOne cfgD 5 = Except.error 9 := by
  refine ⟨?_, ?_, ?_, ?_⟩
  · exact (midl_hook_errors_routed_through_handler addOne cfgA hiThrow hoThrow
      heHook 5 5 6 7).1 rfl rfl rfl
  · exact (midl_hook_errors_routed_through_handler addOne cfgB hiThrow hoThrow
      heHook 5 5 6 9).2.1 rfl rfl rfl rfl rfl
  · exact (midl_hook_errors_routed_through_handler addOne cfgC hiThrow hoThrow
      heHook 5 5 6 7).2.2.1 rfl rfl rfl
  · exact (midl_hook_errors_routed_through_handler addOne cfgD hiThrow hoThrow
      heHook 5 5 6 9).2.2.2 rfl rfl rfl rfl rfl

/-- C2: when no stage throws, the wrapped function returns
`handleOutput(f, f(...x'), ...x')` where `x' = handleInput(f, ...x)`: the
input hook's return value fully replaces the inputs, the base runs on the
transformed inputs, and the output hook receives the base's output together
with the post-transform inputs.  An absent hook's stage is the identity. -/
theorem midl_success_pipeline
    (f : I → Except E O) (cfg : Config I O E)
    (hi : (I → Except E O) → I → Except E I)
    (ho : (I → Except E O) → O → I → Except E O)
    (x x' : I) (o r : O)
    (hhi : cfg.handleInput = some hi)
    (hho : cfg.handleOutput = some ho)
    (h1 : hi f x = Except.ok x')
    (h2 : f x' = Except.ok o)
    (h3 : ho f o x' = Except.ok r) :
    functionWithMiddleware f cfg x = Except.ok r ∧
    (∀ (g : Config I O E) (y : I), g.handleInput = none →
      inputStage g f y = Except.ok y) ∧
    (∀ (g : Config I O E) (p : O) (y : I), g.handleOutput = none →
      outputStage g f p y = Except.ok p) := by
  refine ⟨?_, fun g y hg => ?_, fun g p y hg => ?_⟩
  · simp [functionWithMiddleware, tryStage, inputStage, outputStage, hhi,
      hho, h1, h2, h3]
  · simp [inputStage, hg]
  · simp [outputStage, hg]

/-- C2 (witness): with doubling input and output hooks around `addOne`,
the call on `3` computes `2 * (2 * 3 + 1) = 14`. -/
theorem midl_success_pipeline_witness :
    functionWithMiddleware addOne cfgHooks 3 = Except.ok 14 :=
  (midl_success_pipeline addOne cfgHooks hiDouble hoDouble 3 6 7 14
    rfl rfl rfl rfl rfl).1

/-- C3: when the base callable throws and `handleError` is defined, the
wrapped function returns `handleError(base, error, ...inputs)` directly,
with the post-input-transform inputs; the equation holds for every value of
`cfg.handleOutput`, so the output hook contributes nothing to the result of
an error-recovered call. -/
theorem midl_error_recovery_exclusive
    (f : I → Except E O) (cfg : Config I O E)
    (he : (I → Except E O) → E → I → Except E O)
    (x x' : I) (e : E)
    (hhe : cfg.handleError = some he)
    (hin : inputStage cfg f x = Except.ok x')
    (hbase : f x' = Except.error e) :
    functionWithMiddleware f cfg x = he f e x' := by
  simp [functionWithMiddleware, tryStage, hin, hbase, hhe]

/-- C3 (witness): `throwBase` under `cfgFull` on input `4`: the input hook
doubles `4` to `8`, the base throws `3`, and the error hook returns
`100 * 3 + 8 = 308` — showing it received the post-transform input `8`. -/
theorem midl_error_recovery_exclusive_witness :
    functionWithMiddleware throwBase cfgFull 4 = Except.ok 308 :=
  midl_error_recovery_exclusive throwBase cfgFull heHook 4 8 3 rfl rfl rfl

end MidlClaims

section MidlClaimsB

universe u3 v3 w3

variable {I : Type u3} {O : Type v3} {E : Type w3}

/-- C4: with no configuration the decoration call returns the base callable
itself, and with an empty configuration (no hooks, no assertions) the
wrapped function agrees with the base on every input — same returned value
and same thrown error — and decoration returns it without throwing. -/
theorem midl_identity_law [DecidableEq O] (f : I → Except E O)
    (name : String) (ji : I → String) (so : O → String) :
    createFunctionWithMiddleware f name ji so none = Except.ok f ∧
    (∀ x : I, functionWithMiddleware f {} x = f x) ∧
    createFunctionWithMiddleware f name ji so (some {}) =
      Except.ok (functionWithMiddleware f {}) := by
  refine ⟨rfl, fun x => ?_, rfl⟩
  simp only [functionWithMiddleware, tryStage, inputStage, outputStage]
  cases f x <;> rfl

/-- C6: when `handleError` is absent and the base callable throws, the
wrapped function throws the very same error value to its caller. -/
theorem midl_no_recovery_propagation
    (f : I → Except E O) (cfg : Config I O E) (x x' : I) (e : E)
    (hhe : cfg.handleError = none)
    (hin : inputStage cfg f x = Except.ok x')
    (hbase : f x' = Except.error e) :
    functionWithMiddleware f cfg x = Except.error e := by
  simp [functionWithMiddleware, tryStage, hin, hbase, hhe]

/-- C6 (witness): `throwBase` under `cfgHooks` (no error hook) on input `4`
throws the base's own error value `3`. -/
theorem midl_no_recovery_propagation_witness :
    functionWithMiddleware throwBase cfgHooks 4 = Except.error 3 :=
  midl_no_recovery_propagation throwBase cfgHooks 4 8 3 rfl rfl rfl

/-- C7: the decorator holds no state across calls: in any history of calls
to the same wrapped function, the result of a call is the wrapped function
applied to that call's own inputs, whatever calls precede or follow it; in
particular two calls on equal inputs yield equal results in any two
histories. -/
theorem midl_stateless_calls (f : I → Except E O) (cfg : Config I O E)
    (pre post pre2 post2 : List I) (x : I) :
    (runCalls f cfg (pre ++ x :: post)).get? pre.length =
      some (functionWithMiddleware f cfg x) ∧
    (runCalls f cfg (pre ++ x :: post)).get? pre.length =
      (runCalls f cfg (pre2 ++ x :: post2)).get? pre2.length := by
  refine ⟨runCalls_get f cfg pre post x, ?_⟩
  rw [runCalls_get, runCalls_get]

end MidlClaimsB

section MidlClaimsC

universe u4 v4 w4

variable {I : Type u4} {O : Type v4} {E : Type w4}

/-- C5: assertion pairs are checked in sequence order against the just-built
wrapped function with strict equality; the first mismatch makes decoration
throw an error carrying the base function's name, the literal inputs, the
expected value and the actual value, with no later pair checked (the tail
`rest` is arbitrary) and no wrapped function returned; when every pair
matches the wrapped function is returned, and its per-call behaviour is
independent of the assertion list, so assertions are never re-evaluated. -/
theorem midl_assertion_protocol [DecidableEq O] (f : I → Except E O)
    (cfg : Config I O E) (name : String) (ji : I → String) (so : O → String)
    (pre rest : List (I × O)) (ins : I) (expected actual : O) :
    ((∀ p ∈ pre, functionWithMiddleware f cfg p.1 = Except.ok p.2) →
      functionWithMiddleware f cfg ins = Except.ok actual →
      actual ≠ expected →
      cfg.assertions = pre ++ (ins, expected) :: rest →
      createFunctionWithMiddleware f name ji so (some cfg) =
        Except.error (DecorationError.assertionFailure
          (assertionMessage name (ji ins) (so expected) (so actual)))) ∧
    ((∀ p ∈ cfg.assertions, functionWithMiddleware f cfg p.1 = Except.ok p.2) →
      createFunctionWithMiddleware f name ji so (some cfg) =
        Except.ok (functionWithMiddleware f cfg)) ∧
    (∀ (l : List (I × O)) (x : I),
      functionWithMiddleware f { cfg with assertions := l } x =
        functionWithMiddleware f cfg x) := by
  refine ⟨fun hpre hact hne hassert => ?_, fun hall => ?_, fun l x => rfl⟩
  · have hchk : checkAssertions (functionWithMiddleware f cfg) name ji so
        cfg.assertions = Except.error (DecorationError.assertionFailure
          (assertionMessage name (ji ins) (so expected) (so actual))) := by
      rw [hassert, checkAssertions_append_of_pass _ _ _ _ _ _ hpre]
      simp [checkAssertions, hact, hne]
    simp [createFunctionWithMiddleware, hchk]
  · have hchk := checkAssertions_of_all_pass (functionWithMiddleware f cfg)
      name ji so cfg.assertions hall
    simp [createFunctionWithMiddleware, hchk]

/-- C5 (witness): `addOne` with assertions `[(1, 2), (3, 5)]`: the first
pair passes, the second yields `4 ≠ 5`, and decoration throws the exact
message naming the function, the input, the expected and the actual. -/
theorem midl_assertion_protocol_witness :
    createFunctionWithMiddleware addOne ("addOne") toString toString
      (some cfgAsrtBad) =
      Except.error (DecorationError.assertionFailure
        ("Expected addOne(3) to return 5, but got 4.")) := by
  have h := (midl_assertion_protocol addOne cfgAsrtBad ("addOne") toString
      toString [(1, 2)] [] 3 5 4).1
  exact h (by decide) rfl (by decide) rfl

/-- C8: when `handleInput` throws and `handleError` is defined, the wrapped
function returns `handleError(base, error, ...originalInputs)`: the catch
block sees the untransformed inputs because the reassignment of `inputs`
never took effect, and the result is exactly the error hook's value. -/
theorem midl_input_hook_error_original_inputs
    (f : I → Except E O) (cfg : Config I O E)
    (hi : (I → Except E O) → I → Except E I)
    (he : (I → Except E O) → E → I → Except E O)
    (x : I) (e : E)
    (hhi : cfg.handleInput = some hi)
    (hhe : cfg.handleError = some he)
    (hthrow : hi f x = Except.error e) :
    functionWithMiddleware f cfg x = he f e x := by
  simp [functionWithMiddleware, tryStage, inputStage, hhi, hthrow, hhe]

/-- C8 (witness): under `cfgA` on input `2` the input hook throws `7` and
the error hook receives the original input `2`, returning
`100 * 7 + 2 = 702`. -/
theorem midl_input_hook_error_original_inputs_witness :
    functionWithMiddleware addOne cfgA 2 = Except.ok 702 :=
  midl_input_hook_error_original_inputs addOne cfgA hiThrow heHook 2 7
    rfl rfl rfl

/-- C9: when `handleError` is defined and itself throws while recovering a
base error, that error propagates out of the wrapped function; there is no
second level of recovery. -/
theorem midl_error_handler_throw_propagates
    (f : I → Except E O) (cfg : Config I O E)
    (he : (I → Except E O) → E → I → Except E O)
    (x x' : I) (e e2 : E)
    (hhe : cfg.handleError = some he)
    (hin : inputStage cfg f x = Except.ok x')
    (hbase : f x' = Except.error e)
    (hh : he f e x' = Except.error e2) :
    functionWithMiddleware f cfg x = Except.error e2 := by
  simp [functionWithMiddleware, tryStage, hin, hbase, hhe, hh]

/-- C9 (witness): `throwBase` throws `3`, the error hook of `cfgRethrow`
rethrows `3 + 50 = 53`, and the wrapped function throws `53`. -/
theorem midl_error_handler_throw_propagates_witness :
    functionWithMiddleware throwBase cfgRethrow 0 = Except.error 53 :=
  midl_error_handler_throw_propagates throwBase cfgRethrow heThrow 0 0 3 53
    rfl rfl rfl rfl

/-- C10: when, while a pair's assertion is being checked at decoration
time, the wrapped function itself throws, that error propagates out of the
decoration call as-is: no mismatch error is constructed, later pairs (the
arbitrary tail `rest`) are never checked, and no function is returned. -/
theorem midl_assertion_runtime_error_propagates [DecidableEq O]
    (f : I → Except E O) (cfg : Config I O E)
    (name : String) (ji : I → String) (so : O → String)
    (pre rest : List (I × O)) (ins : I) (expected : O) (e : E)
    (hpre : ∀ p ∈ pre, functionWithMiddleware f cfg p.1 = Except.ok p.2)
    (hthrow : functionWithMiddleware f cfg ins = Except.error e)
    (hassert : cfg.assertions = pre ++ (ins, expected) :: rest) :
    createFunctionWithMiddleware f name ji so (some cfg) =
      Except.error (DecorationError.runtime e) := by
  have hchk : checkAssertions (functionWithMiddleware f cfg) name ji so
      cfg.assertions = Except.error (DecorationError.runtime e) := by
    rw [hassert, checkAssertions_append_of_pass _ _ _ _ _ _ hpre]
    simp [checkAssertions, hthrow]
  simp [createFunctionWithMiddleware, hchk]

/-- C10 (witness): decorating `throwBase` with the assertion `(0, 9)`
propagates the base's thrown `3` out of the decoration call. -/
theorem midl_assertion_runtime_error_propagates_witness :
    createFunctionWithMiddleware throwBase ("throwBase") toString toString
      (some cfgAsrtThrow) = Except.error (DecorationError.runtime 3) :=
  midl_assertion_runtime_error_propagates throwBase cfgAsrtThrow
    ("throwBase") toString toString [] [] 0 9 3 (by simp) rfl rfl

end MidlClaimsC
